import Mathlib

/-!
Verification of the core of `src/main.py` (minecraft-world-backup).

The program keeps rotated zip backups of a source folder at two
destinations (a local folder and an FTP server), driven by a scheduler
loop.  This file shallowly embeds the core state transformers of
`BackupManager`:

* `rotateLoop` — the `while len(backups) >= max: backups.pop(0); delete`
  loop shared by `process_local` (main.py:133-136) and `process_ftp`
  (main.py:171-174).  Popping from an empty list raises `IndexError`
  in Python, so the loop is modelled as `Except`, where the error value
  carries the folder contents at the raise point (deletions performed
  before the raise persist on disk).
* `processLocalE` / `processLocal` — `process_local` (main.py:122-145):
  sort the folder by modification time, rotate, copy the archive in,
  set `last_local_run`; all exceptions are caught at the function's
  boundary (`processLocal` is the caught version).
* `processFtpE` / `processFtp` — `process_ftp` (main.py:147-184):
  connect, login, cwd, list + lexicographic sort, rotate, upload, set
  `last_ftp_run`, with the same catch-all boundary.  Failure-injection
  parameters model which Python step raises.
* `runCycle` / `sleepSeconds` — one iteration of `run_loop`
  (main.py:186-228): due-ness test, `create_zip`, both stores, the
  `finally` cleanup of the scratch zip/dir, and the wait computation.
* `cleanupTemp` / `cleanupTempE` — `cleanup_temp` (main.py:115-120).

Archives stored at a destination are identified by their ordering key
(`st_mtime` for the local folder, filename rank for FTP), modelled as a
`Nat`; Python's stable `sorted` is modelled by `List.insertionSort`.
Times (`time.time()`, `last_run`) are epoch seconds modelled as `Int`.
The lexicographic-filename contract of the FTP ordering is verified
separately on the actual `backup_<YYYYMMDD>_<HHMMSS>.zip` byte strings
(`archiveNameCodes`, `lexLt`).
-/

namespace MCBackup

/-- The rotation loop `while len(backups) >= max: oldest = backups.pop(0);
delete(oldest)` of main.py:133-136 and main.py:171-174.  The list argument
is the sorted listing (oldest first); the result is the surviving listing.
`pop(0)` on an empty list raises `IndexError`; the `.error` payload is the
folder contents at the raise point (always `[]`, since the raise happens
exactly when everything has been deleted). -/
def rotateLoop (maxKeep : Nat) : List Nat → Except (List Nat) (List Nat)
  | [] => if maxKeep = 0 then .error [] else .ok []
  | x :: rest =>
      if rest.length + 1 ≥ maxKeep then rotateLoop maxKeep rest
      else .ok (x :: rest)

/-- State of one destination: the multiset of stored backup archives
(ordering keys) and that destination's `last_run` epoch seconds. -/
structure DestState where
  folder : List Nat
  lastRun : Int
deriving DecidableEq

/-- Python's stable ascending `sorted(...)` / `files.sort()` on the
destination listing, by ordering key. -/
def sortByKey (l : List Nat) : List Nat := l.insertionSort (· ≤ ·)

/-- `process_local` (main.py:122-145) with the catch-all boundary removed:
sort the folder by mtime, rotate, then `shutil.copy2` the new archive in
and record `last_local_run = time.time()`.  `copyOk = false` injects a
failure (an `IOError` raised by `copy2`); a raised exception yields
`.error` carrying the on-disk state at the raise point. -/
def processLocalE (maxKeep newKey : Nat) (now : Int) (copyOk : Bool)
    (st : DestState) : Except DestState DestState :=
  match rotateLoop maxKeep (sortByKey st.folder) with
  | .error remaining => .error { st with folder := remaining }
  | .ok remaining =>
      if copyOk then .ok { folder := remaining ++ [newKey], lastRun := now }
      else .error { st with folder := remaining }

/-- `process_local` as the scheduler sees it: the `try/except` at
main.py:127-145 catches every exception, so the call always returns and
the state at the raise point persists. -/
def processLocal (maxKeep newKey : Nat) (now : Int) (copyOk : Bool)
    (st : DestState) : DestState :=
  match processLocalE maxKeep newKey now copyOk st with
  | .error s => s
  | .ok s => s

/-- Which step of `process_ftp` raises, if any: `ftp.connect`,
`ftp.login`, the `cwd`/`mkd` block, or `ftp.storbinary`. -/
inductive FtpFail
  | connect
  | login
  | cwd
  | upload
deriving DecidableEq

/-- `process_ftp` (main.py:147-184) with the catch-all boundary removed:
connect, login, change into the remote folder, list and lexicographically
sort the `backup_*.zip` entries, rotate (deleting remote files), upload,
record `last_ftp_run`.  Failures before the rotation leave the remote
folder untouched; a failure at the upload step keeps the rotation's
deletions (they already happened on the server). -/
def processFtpE (maxKeep newKey : Nat) (now : Int) (fail : Option FtpFail)
    (st : DestState) : Except DestState DestState :=
  if fail = some .connect then .error st
  else if fail = some .login then .error st
  else if fail = some .cwd then .error st
  else
    match rotateLoop maxKeep (sortByKey st.folder) with
    | .error remaining => .error { st with folder := remaining }
    | .ok remaining =>
        if fail = some .upload then .error { st with folder := remaining }
        else .ok { folder := remaining ++ [newKey], lastRun := now }

/-- `process_ftp` as the scheduler sees it (the `try/except` at
main.py:154-184 catches every exception). -/
def processFtp (maxKeep newKey : Nat) (now : Int) (fail : Option FtpFail)
    (st : DestState) : DestState :=
  match processFtpE maxKeep newKey now fail st with
  | .error s => s
  | .ok s => s

/-- With `maxKeep = 0` the rotation loop deletes everything and then
raises popping from the empty list. -/
theorem rotateLoop_zero (l : List Nat) : rotateLoop 0 l = .error [] := by
  induction l with
  | nil => simp [rotateLoop]
  | cons x rest ih => simp [rotateLoop, ih]

/-- With `maxKeep ≥ 1` the rotation loop never raises: it drops entries
from the front of the sorted listing until fewer than `maxKeep` remain. -/
theorem rotateLoop_pos (maxKeep : Nat) (hm : 1 ≤ maxKeep) (l : List Nat) :
    rotateLoop maxKeep l = .ok (l.drop (l.length + 1 - maxKeep)) := by
  induction l with
  | nil =>
      simp [rotateLoop]
      omega
  | cons x rest ih =>
      by_cases h : rest.length + 1 ≥ maxKeep
      · rw [rotateLoop, if_pos h, ih]
        have h2 : rest.length + 1 + 1 - maxKeep = (rest.length + 1 - maxKeep) + 1 := by
          omega
        simp [h2]
      · rw [rotateLoop, if_neg h]
        have h2 : rest.length + 1 + 1 - maxKeep = 0 := by omega
        simp [h2]

/-- Length of the surviving listing after a successful rotation:
`min (length l) (maxKeep - 1)` — strictly below the limit, making room
for the incoming archive. -/
theorem rotateLoop_pos_length (maxKeep : Nat) (hm : 1 ≤ maxKeep) (l : List Nat) :
    ∀ r, rotateLoop maxKeep l = .ok r → r.length = min l.length (maxKeep - 1) := by
  intro r hr
  rw [rotateLoop_pos maxKeep hm l] at hr
  cases hr
  simp [List.length_drop]
  omega

/-- The configuration fields of `BackupConfig` (main.py:18-36) that the
scheduler core reads: per-destination enabled flag, retention maximum,
and interval in seconds. -/
structure Config where
  localEnabled : Bool
  localMax : Nat
  localInterval : Int
  ftpEnabled : Bool
  ftpMax : Nat
  ftpInterval : Int
deriving DecidableEq

/-- The filesystem/process state one `run_loop` iteration acts on:
scratch area (`temp_backups` dir, whether the cycle's zip is inside it,
whether any foreign file is inside it) and both destinations. -/
structure SysState where
  tempDirExists : Bool
  tempZipExists : Bool
  tempOther : Bool
  localDest : DestState
  ftpDest : DestState
deriving DecidableEq

/-- `do_local` (main.py:194): local is due iff enabled and
`now - last_local_run >= local_interval`. -/
def dueLocal (cfg : Config) (st : SysState) (now : Int) : Bool :=
  cfg.localEnabled && decide (now - st.localDest.lastRun ≥ cfg.localInterval)

/-- `do_ftp` (main.py:195). -/
def dueFtp (cfg : Config) (st : SysState) (now : Int) : Bool :=
  cfg.ftpEnabled && decide (now - st.ftpDest.lastRun ≥ cfg.ftpInterval)

/-- `cleanup_temp` (main.py:115-120) as a state transformer: unlink the
zip if it exists, then remove the scratch directory if it exists and is
empty. -/
def cleanupTemp (st : SysState) : SysState :=
  let st1 := if st.tempZipExists then { st with tempZipExists := false } else st
  if st1.tempDirExists && !st1.tempZipExists && !st1.tempOther then
    { st1 with tempDirExists := false }
  else st1

/-- `Path.unlink` on the cycle's zip: raises (`FileNotFoundError`) when
the file does not exist. -/
def unlinkZipE (st : SysState) : Except Unit SysState :=
  if st.tempZipExists then .ok { st with tempZipExists := false } else .error ()

/-- `Path.rmdir` on the scratch directory: raises when the directory is
missing or not empty. -/
def rmdirTempE (st : SysState) : Except Unit SysState :=
  if st.tempDirExists && !st.tempZipExists && !st.tempOther then
    .ok { st with tempDirExists := false }
  else .error ()

/-- `cleanup_temp` with the raising semantics of its primitives exposed:
`if zip_path.exists(): zip_path.unlink()` then
`if temp_dir.exists() and not any(temp_dir.iterdir()): temp_dir.rmdir()`. -/
def cleanupTempE (st : SysState) : Except Unit SysState :=
  match (if st.tempZipExists then unlinkZipE st else .ok st) with
  | .error e => .error e
  | .ok st1 =>
      if st1.tempDirExists && !st1.tempZipExists && !st1.tempOther then rmdirTempE st1
      else .ok st1

/-- One iteration of the body of `run_loop` (main.py:192-218), with the
end-of-iteration sleep factored out into `sleepSeconds`.  `newKey` is the
ordering key of the archive `create_zip` would produce this cycle;
`createOk = false` injects a failure of `shutil.make_archive` (after
`temp_dir.mkdir` has already happened, main.py:105); `copyOk` and
`ftpFail` inject per-destination store failures.  The `finally` block
(main.py:215-218) runs `cleanup_temp` only when `zip_path` is not `None`,
i.e. only when `create_zip` returned. -/
def runCycle (cfg : Config) (now : Int) (newKey : Nat) (createOk copyOk : Bool)
    (ftpFail : Option FtpFail) (st : SysState) : SysState :=
  if dueLocal cfg st now || dueFtp cfg st now then
    let st1 := { st with tempDirExists := true }
    if createOk then
      let st2 := { st1 with tempZipExists := true }
      let st3 :=
        if dueLocal cfg st now then
          { st2 with localDest := processLocal cfg.localMax newKey now copyOk st2.localDest }
        else st2
      let st4 :=
        if dueFtp cfg st now then
          { st3 with ftpDest := processFtp cfg.ftpMax newKey now ftpFail st3.ftpDest }
        else st3
      cleanupTemp st4
    else st1
  else st

/-- `next_local` (main.py:221): the local deadline, or `none` for the
`float('inf')` of a disabled destination. -/
def nextLocal (cfg : Config) (st : SysState) : Option Int :=
  if cfg.localEnabled then some (st.localDest.lastRun + cfg.localInterval) else none

/-- `next_ftp` (main.py:222). -/
def nextFtp (cfg : Config) (st : SysState) : Option Int :=
  if cfg.ftpEnabled then some (st.ftpDest.lastRun + cfg.ftpInterval) else none

/-- `min` over deadlines where `none` is `float('inf')`. -/
def minOpt : Option Int → Option Int → Option Int
  | some a, some b => some (min a b)
  | some a, none => some a
  | none, b => b

/-- `seconds_until_next = max(5, int(min(next_local, next_ftp) - time.time()))`
(main.py:224).  `none` corresponds to the `OverflowError` that `int(inf)`
raises when both destinations are disabled. -/
def sleepSeconds (cfg : Config) (st : SysState) (now2 : Int) : Option Int :=
  (minOpt (nextLocal cfg st) (nextFtp cfg st)).map (fun m => max 5 (m - now2))

/-- A wall-clock timestamp as `datetime.now()` provides it (main.py:198). -/
structure Timestamp where
  year : Nat
  month : Nat
  day : Nat
  hour : Nat
  minute : Nat
  second : Nat
deriving DecidableEq

/-- Field ranges guaranteed by Python's `datetime` (year 1..9999, month
1..12, day 1..31, hour 0..23, minute/second 0..59). -/
def Timestamp.valid (t : Timestamp) : Prop :=
  1 ≤ t.year ∧ t.year ≤ 9999 ∧ 1 ≤ t.month ∧ t.month ≤ 12 ∧
  1 ≤ t.day ∧ t.day ≤ 31 ∧ t.hour ≤ 23 ∧ t.minute ≤ 59 ∧ t.second ≤ 59

instance (t : Timestamp) : Decidable t.valid := by
  unfold Timestamp.valid
  infer_instance

/-- Chronological order on timestamps: lexicographic on
(year, month, day, hour, minute, second). -/
def Timestamp.chronoLt (a b : Timestamp) : Prop :=
  a.year < b.year ∨ (a.year = b.year ∧
    (a.month < b.month ∨ (a.month = b.month ∧
      (a.day < b.day ∨ (a.day = b.day ∧
        (a.hour < b.hour ∨ (a.hour = b.hour ∧
          (a.minute < b.minute ∨ (a.minute = b.minute ∧
            a.second < b.second)))))))))

instance (a b : Timestamp) : Decidable (a.chronoLt b) := by
  unfold Timestamp.chronoLt
  infer_instance

/-- The ASCII codes of a number rendered zero-padded to width `w`, most
significant digit first — the fixed-width fields `strftime` produces for
`%Y`, `%m`, `%d`, `%H`, `%M`, `%S` (main.py:198). -/
def padCodes : Nat → Nat → List Nat
  | 0, _ => []
  | w + 1, n => (48 + n / 10 ^ w) :: padCodes w (n % 10 ^ w)

/-- The ASCII codes of the archive filename
`backup_<YYYYMMDD>_<HHMMSS>.zip` (main.py:198-199 plus the `.zip` suffix
`shutil.make_archive` appends, main.py:109-111). -/
def archiveNameCodes (t : Timestamp) : List Nat :=
  [98, 97, 99, 107, 117, 112, 95] ++ padCodes 4 t.year ++ padCodes 2 t.month
    ++ padCodes 2 t.day ++ [95] ++ padCodes 2 t.hour ++ padCodes 2 t.minute
    ++ padCodes 2 t.second ++ [46, 122, 105, 112]

/-- Strict lexicographic order on byte strings — what Python's
`files.sort()` (main.py:169) uses to compare ASCII filenames. -/
def lexLt : List Nat → List Nat → Bool
  | _, [] => false
  | [], _ :: _ => true
  | a :: as, b :: bs =>
      if a < b then true else if b < a then false else lexLt as bs

/-- The matching non-strict order, `a ≤ b ↔ ¬ b < a` for a total order. -/
def lexLe (a b : List Nat) : Prop := lexLt b a = false

instance : DecidableRel lexLe := by
  unfold lexLe
  infer_instance

/-- `files.sort()` on the remote name listing. -/
def sortNames (l : List (List Nat)) : List (List Nat) := l.insertionSort lexLe

theorem lt_of_div_lt (P a b : Nat) (hP : 0 < P) (h : a / P < b / P) : a < b := by
  have h1 := Nat.div_add_mod a P
  have h2 := Nat.div_add_mod b P
  have h3 : a % P < P := Nat.mod_lt a hP
  have h4 : P * (a / P) + P ≤ P * (b / P) := by
    have h5 : P * (a / P + 1) ≤ P * (b / P) := Nat.mul_le_mul_left P h
    rw [Nat.mul_succ] at h5
    exact h5
  omega

theorem lt_iff_mod_lt_of_div_eq (P a b : Nat) (heq : a / P = b / P) :
    (a < b ↔ a % P < b % P) ∧ (a = b ↔ a % P = b % P) := by
  have h1 := Nat.div_add_mod a P
  have h2 := Nat.div_add_mod b P
  rw [heq] at h1
  refine ⟨⟨fun h => by omega, fun h => by omega⟩, ⟨fun h => by omega, fun h => by omega⟩⟩

/-- Comparing two equally zero-padded numbers inside longer strings:
the lexicographic comparison agrees with the numeric comparison, falling
through to the suffixes on equality. -/
theorem lexLt_padCodes_append (w : Nat) :
    ∀ a b : Nat, a < 10 ^ w → b < 10 ^ w → ∀ xs ys : List Nat,
      (lexLt (padCodes w a ++ xs) (padCodes w b ++ ys) = true ↔
        (a < b ∨ (a = b ∧ lexLt xs ys = true))) := by
  induction w with
  | zero =>
      intro a b ha hb xs ys
      have ha0 : a = 0 := by omega
      have hb0 : b = 0 := by omega
      subst ha0
      subst hb0
      simp [padCodes]
  | succ w ih =>
      intro a b ha hb xs ys
      have hP : 0 < 10 ^ w := Nat.pos_pow_of_pos w (by norm_num)
      have hma : a % 10 ^ w < 10 ^ w := Nat.mod_lt a hP
      have hmb : b % 10 ^ w < 10 ^ w := Nat.mod_lt b hP
      rw [padCodes, padCodes]
      simp only [List.cons_append]
      rw [lexLt]
      rcases Nat.lt_trichotomy (a / 10 ^ w) (b / 10 ^ w) with hq | hq | hq
      · have hab : a < b := lt_of_div_lt (10 ^ w) a b hP hq
        simp [hq, hab]
      · have hiff := lt_iff_mod_lt_of_div_eq (10 ^ w) a b hq
        rw [hq]
        simp only [lt_irrefl, if_neg (lt_irrefl _), if_false]
        rw [ih (a % 10 ^ w) (b % 10 ^ w) hma hmb xs ys]
        rw [hiff.1, hiff.2]
      · have hab : b < a := lt_of_div_lt (10 ^ w) b a hP hq
        have h1 : ¬ (48 + a / 10 ^ w < 48 + b / 10 ^ w) := by omega
        have h2 : 48 + b / 10 ^ w < 48 + a / 10 ^ w := by omega
        simp [h1, h2]
        omega

/-- Stripping a shared prefix from a lexicographic comparison. -/
theorem lexLt_append_same (p : List Nat) :
    ∀ xs ys : List Nat, lexLt (p ++ xs) (p ++ ys) = lexLt xs ys := by
  induction p with
  | nil => intro xs ys; rfl
  | cons a p ih =>
      intro xs ys
      simp only [List.cons_append]
      rw [lexLt]
      simp [ih]

/-- The fixed-width naming contract: the earlier timestamp always yields
the lexicographically smaller `backup_<YYYYMMDD>_<HHMMSS>.zip` name. -/
theorem lexLt_archiveName_of_chronoLt (t1 t2 : Timestamp)
    (h1 : t1.valid) (h2 : t2.valid) (h : t1.chronoLt t2) :
    lexLt (archiveNameCodes t1) (archiveNameCodes t2) = true := by
  obtain ⟨t1y, t1mo, t1d, t1h, t1mi, t1s⟩ := t1
  obtain ⟨t2y, t2mo, t2d, t2h, t2mi, t2s⟩ := t2
  simp only [Timestamp.valid] at h1 h2
  simp only [Timestamp.chronoLt] at h
  obtain ⟨hy1a, hy1b, hmo1a, hmo1b, hd1a, hd1b, hh1, hmi1, hs1⟩ := h1
  obtain ⟨hy2a, hy2b, hmo2a, hmo2b, hd2a, hd2b, hh2, hmi2, hs2⟩ := h2
  simp only [archiveNameCodes, List.append_assoc]
  rw [lexLt_append_same]
  rcases h with hy | ⟨hy, h⟩
  · exact (lexLt_padCodes_append 4 t1y t2y (by omega) (by omega) _ _).mpr (Or.inl hy)
  subst hy
  refine (lexLt_padCodes_append 4 t1y t1y (by omega) (by omega) _ _).mpr (Or.inr ⟨rfl, ?_⟩)
  rcases h with hmo | ⟨hmo, h⟩
  · exact (lexLt_padCodes_append 2 t1mo t2mo (by omega) (by omega) _ _).mpr (Or.inl hmo)
  subst hmo
  refine (lexLt_padCodes_append 2 t1mo t1mo (by omega) (by omega) _ _).mpr (Or.inr ⟨rfl, ?_⟩)
  rcases h with hd | ⟨hd, h⟩
  · exact (lexLt_padCodes_append 2 t1d t2d (by omega) (by omega) _ _).mpr (Or.inl hd)
  subst hd
  refine (lexLt_padCodes_append 2 t1d t1d (by omega) (by omega) _ _).mpr (Or.inr ⟨rfl, ?_⟩)
  rw [lexLt_append_same [95]]
  rcases h with hh | ⟨hh, h⟩
  · exact (lexLt_padCodes_append 2 t1h t2h (by omega) (by omega) _ _).mpr (Or.inl hh)
  subst hh
  refine (lexLt_padCodes_append 2 t1h t1h (by omega) (by omega) _ _).mpr (Or.inr ⟨rfl, ?_⟩)
  rcases h with hmi | ⟨hmi, hs⟩
  · exact (lexLt_padCodes_append 2 t1mi t2mi (by omega) (by omega) _ _).mpr (Or.inl hmi)
  subst hmi
  refine (lexLt_padCodes_append 2 t1mi t1mi (by omega) (by omega) _ _).mpr (Or.inr ⟨rfl, ?_⟩)
  exact (lexLt_padCodes_append 2 t1s t2s (by omega) (by omega) _ _).mpr (Or.inl hs)

/-- A successful local store from any folder contents ends with
`min (old count + 1) maxKeep` retained archives. -/
theorem processLocal_ok_length (m k : Nat) (hm : 1 ≤ m) (now : Int) (st : DestState) :
    (processLocal m k now true st).folder.length = min (st.folder.length + 1) m := by
  unfold processLocal processLocalE
  rw [rotateLoop_pos m hm (sortByKey st.folder)]
  simp [sortByKey, List.length_insertionSort]
  omega

/-- A successful FTP store from any folder contents ends with
`min (old count + 1) maxKeep` retained archives. -/
theorem processFtp_ok_length (m k : Nat) (hm : 1 ≤ m) (now : Int) (st : DestState) :
    (processFtp m k now none st).folder.length = min (st.folder.length + 1) m := by
  unfold processFtp processFtpE
  rw [rotateLoop_pos m hm (sortByKey st.folder)]
  simp [sortByKey, List.length_insertionSort]
  omega

/-- A sequence of successful local stores (main.py:122-145), one per key. -/
def localStores (maxKeep : Nat) (keys : List Nat) (now : Int) (st : DestState) : DestState :=
  keys.foldl (fun s k => processLocal maxKeep k now true s) st

/-- A sequence of successful FTP stores (main.py:147-184), one per key. -/
def ftpStores (maxKeep : Nat) (keys : List Nat) (now : Int) (st : DestState) : DestState :=
  keys.foldl (fun s k => processFtp maxKeep k now none s) st

theorem localStores_length (m : Nat) (hm : 1 ≤ m) (now : Int) :
    ∀ (keys : List Nat) (st : DestState), keys ≠ [] →
      (localStores m keys now st).folder.length = min (st.folder.length + keys.length) m := by
  intro keys
  induction keys with
  | nil => intro st h; exact absurd rfl h
  | cons k ks ih =>
      intro st _
      by_cases hks : ks = []
      · subst hks
        simp only [localStores, List.foldl_cons, List.foldl_nil]
        rw [processLocal_ok_length m k hm now st]
        simp
      · have step : localStores m (k :: ks) now st =
            localStores m ks now (processLocal m k now true st) := by
          simp [localStores]
        rw [step, ih (processLocal m k now true st) hks,
          processLocal_ok_length m k hm now st]
        simp only [List.length_cons]
        omega

theorem ftpStores_length (m : Nat) (hm : 1 ≤ m) (now : Int) :
    ∀ (keys : List Nat) (st : DestState), keys ≠ [] →
      (ftpStores m keys now st).folder.length = min (st.folder.length + keys.length) m := by
  intro keys
  induction keys with
  | nil => intro st h; exact absurd rfl h
  | cons k ks ih =>
      intro st _
      by_cases hks : ks = []
      · subst hks
        simp only [ftpStores, List.foldl_cons, List.foldl_nil]
        rw [processFtp_ok_length m k hm now st]
        simp
      · have step : ftpStores m (k :: ks) now st =
            ftpStores m ks now (processFtp m k now none st) := by
          simp [ftpStores]
        rw [step, ih (processFtp m k now none st) hks,
          processFtp_ok_length m k hm now st]
        simp only [List.length_cons]
        omega

theorem cleanupTemp_localDest (st : SysState) :
    (cleanupTemp st).localDest = st.localDest := by
  unfold cleanupTemp
  by_cases hz : st.tempZipExists <;> simp [hz] <;> split <;> rfl

theorem cleanupTemp_ftpDest (st : SysState) :
    (cleanupTemp st).ftpDest = st.ftpDest := by
  unfold cleanupTemp
  by_cases hz : st.tempZipExists <;> simp [hz] <;> split <;> rfl

/-- After `cleanup_temp`, a scratch directory that held nothing but the
cycle's zip is gone, and so is the zip. -/
theorem cleanupTemp_clean (st : SysState) (hdir : st.tempDirExists = true)
    (hother : st.tempOther = false) :
    (cleanupTemp st).tempZipExists = false ∧ (cleanupTemp st).tempDirExists = false := by
  unfold cleanupTemp
  by_cases hz : st.tempZipExists <;> simp [hz, hdir, hother]

/-- What one cycle does to the local destination (`create_zip` succeeds). -/
theorem runCycle_localDest (cfg : Config) (now : Int) (k : Nat) (c : Bool)
    (f : Option FtpFail) (st : SysState) :
    (runCycle cfg now k true c f st).localDest =
      (if dueLocal cfg st now then processLocal cfg.localMax k now c st.localDest
       else st.localDest) := by
  unfold runCycle
  by_cases hl : dueLocal cfg st now <;> by_cases hf : dueFtp cfg st now <;>
    simp [hl, hf, cleanupTemp_localDest]

/-- What one cycle does to the FTP destination (`create_zip` succeeds). -/
theorem runCycle_ftpDest (cfg : Config) (now : Int) (k : Nat) (c : Bool)
    (f : Option FtpFail) (st : SysState) :
    (runCycle cfg now k true c f st).ftpDest =
      (if dueFtp cfg st now then processFtp cfg.ftpMax k now f st.ftpDest
       else st.ftpDest) := by
  unfold runCycle
  by_cases hl : dueLocal cfg st now <;> by_cases hf : dueFtp cfg st now <;>
    simp [hl, hf, cleanupTemp_ftpDest]

/-- A failed local copy leaves `last_local_run` untouched. -/
theorem processLocal_fail_lastRun (m k : Nat) (now : Int) (st : DestState) :
    (processLocal m k now false st).lastRun = st.lastRun := by
  unfold processLocal processLocalE
  rcases h : rotateLoop m (sortByKey st.folder) with r | r <;> simp

/-- A failed FTP store leaves `last_ftp_run` untouched, whichever step
raised. -/
theorem processFtp_fail_lastRun (m k : Nat) (now : Int) (f : FtpFail) (st : DestState) :
    (processFtp m k now (some f) st).lastRun = st.lastRun := by
  unfold processFtp processFtpE
  rcases f <;> simp
  rcases h : rotateLoop m (sortByKey st.folder) with r | r <;> simp

/-- C1: for every destination configured with `max = N ≥ 1`, after any
nonempty sequence of successful stores the retained count is ≤ N; starting
from an empty destination it is exactly `min (stores) N`, hence exactly N
once at least N stores have occurred; and the rotation loop leaves at most
N - 1 entries before the new archive lands, so the count never reaches
N + 1. -/
theorem c1_retention_bound (N : Nat) (hN : 1 ≤ N) :
    (∀ (keys : List Nat) (now : Int) (st : DestState), keys ≠ [] →
        (localStores N keys now st).folder.length ≤ N ∧
        (ftpStores N keys now st).folder.length ≤ N)
  ∧ (∀ (keys : List Nat) (now : Int),
        (localStores N keys now ⟨[], 0⟩).folder.length = min keys.length N ∧
        (ftpStores N keys now ⟨[], 0⟩).folder.length = min keys.length N)
  ∧ (∀ (l r : List Nat), rotateLoop N l = .ok r → r.length < N) := by
  refine ⟨?_, ?_, ?_⟩
  · intro keys now st hkeys
    rw [localStores_length N hN now keys st hkeys, ftpStores_length N hN now keys st hkeys]
    omega
  · intro keys now
    by_cases hkeys : keys = []
    · subst hkeys
      simp [localStores, ftpStores]
    · rw [localStores_length N hN now keys ⟨[], 0⟩ hkeys,
        ftpStores_length N hN now keys ⟨[], 0⟩ hkeys]
      simp
  · intro l r hr
    have := rotateLoop_pos_length N hN l r hr
    omega

theorem c1_retention_bound_witness :
    1 ≤ 2 ∧
    (localStores 2 [5, 6, 7] 0 ⟨[], 0⟩).folder.length = min ([5, 6, 7] : List Nat).length 2 ∧
    (ftpStores 2 [5, 6, 7] 0 ⟨[], 0⟩).folder.length = min ([5, 6, 7] : List Nat).length 2 :=
  ⟨by decide, ((c1_retention_bound 2 (by decide)).2.1 [5, 6, 7] 0).1,
    ((c1_retention_bound 2 (by decide)).2.1 [5, 6, 7] 0).2⟩

/-- C4 counterexample: with stored ordering keys T1 = 1 < T2 = 2 and
`max = k = 1 < n = 2`, the claim predicts that rotation deletes only
T1..T(n-k) = {1} and leaves {2}; the rotation loop of main.py:133-135
actually runs while `len >= max` and deletes both entries. -/
theorem c4_counterexample :
    rotateLoop 1 [1, 2] = .ok [] ∧ rotateLoop 1 [1, 2] ≠ .ok [2] := by
  have h0 : rotateLoop 1 [1, 2] = .ok [] := rfl
  refine ⟨h0, fun h => ?_⟩
  rw [h0] at h
  simp at h

/-- C4 (amended): rotation deletes the oldest entries first, and with
ordering keys T1 < ... < Tn and `max = k < n` (k ≥ 1) it deletes exactly
T1..T(n-k+1) — one more than the claim stated — leaving the k - 1 newest,
so that the incoming archive brings the total back to k; a successful
store then holds exactly the surviving tail plus the new archive. -/
theorem c4_rotation_oldest_first (k : Nat) (l : List Nat) (hk : 1 ≤ k)
    (hkn : k < l.length) :
    rotateLoop k l = .ok (l.drop (l.length + 1 - k))
  ∧ (l.drop (l.length + 1 - k)).length = k - 1
  ∧ ∀ (newKey : Nat) (now r : Int), l.Sorted (· ≤ ·) →
      (processLocal k newKey now true ⟨l, r⟩).folder =
        l.drop (l.length + 1 - k) ++ [newKey] := by
  refine ⟨rotateLoop_pos k hk l, ?_, ?_⟩
  · simp [List.length_drop]
    omega
  · intro newKey now r hs
    unfold processLocal processLocalE
    have hsort : sortByKey l = l := hs.insertionSort_eq
    simp only [hsort]
    rw [rotateLoop_pos k hk l]
    simp

theorem c4_rotation_oldest_first_witness :
    1 ≤ 3 ∧ 3 < ([1, 2, 3, 4] : List Nat).length ∧
    rotateLoop 3 [1, 2, 3, 4] = .ok (([1, 2, 3, 4] : List Nat).drop (([1, 2, 3, 4] : List Nat).length + 1 - 3)) ∧
    (processLocal 3 9 50 true ⟨[1, 2, 3, 4], 0⟩).folder =
      ([1, 2, 3, 4] : List Nat).drop (([1, 2, 3, 4] : List Nat).length + 1 - 3) ++ [9] :=
  ⟨by decide, by decide, (c4_rotation_oldest_first 3 [1, 2, 3, 4] (by decide) (by decide)).1,
    (c4_rotation_oldest_first 3 [1, 2, 3, 4] (by decide) (by decide)).2.2 9 50 0 (by decide)⟩

/-- C5: with `max_local = 3` and an initially empty folder, storing
archives with mtime keys 1, 2, 3 leaves exactly [1, 2, 3]; a fourth store
of key 4 deletes key 1 and leaves exactly [2, 3, 4]. -/
theorem c5_local_scenario :
    (localStores 3 [1, 2, 3] 10 ⟨[], 0⟩).folder = [1, 2, 3]
  ∧ (processLocal 3 4 40 true (localStores 3 [1, 2, 3] 10 ⟨[], 0⟩)).folder = [2, 3, 4] := by
  decide

/-- C7 counterexample: with `max = 0` a store on an empty destination is
claimed to behave as `max = 1` and retain the new archive; in the code the
rotation loop condition `len >= 0` always holds, `pop(0)` raises
`IndexError` on the empty listing, the exception is caught, and nothing is
stored — unlike `max = 1`, which stores the archive and advances
`last_run`. -/
theorem c7_counterexample :
    processLocal 0 42 7 true ⟨[], 0⟩ = ⟨[], 0⟩
  ∧ processLocal 1 42 7 true ⟨[], 0⟩ = ⟨[42], 7⟩
  ∧ (⟨[], 0⟩ : DestState) ≠ ⟨[42], 7⟩ := by decide

/-- C7 (amended): a configured `max = 0` is not guarded: at both
destinations the rotation loop first deletes every stored archive, then
raises popping from the empty listing; the store therefore fails, the new
archive is not retained, and `last_run` is not advanced. -/
theorem c7_max_zero_unguarded (newKey : Nat) (now : Int) (st : DestState) :
    processLocalE 0 newKey now true st = .error ⟨[], st.lastRun⟩
  ∧ processLocal 0 newKey now true st = ⟨[], st.lastRun⟩
  ∧ processFtpE 0 newKey now none st = .error ⟨[], st.lastRun⟩
  ∧ processFtp 0 newKey now none st = ⟨[], st.lastRun⟩ := by
  unfold processLocal processLocalE processFtp processFtpE
  rw [rotateLoop_zero]
  simp

/-- C8: `cleanup_temp` never raises — the unlink is guarded by
`zip_path.exists()` and the rmdir by `temp_dir.exists()` plus an
emptiness check — and running it again on the already-cleaned state is a
no-op that also does not raise. -/
theorem c8_cleanup_idempotent (st : SysState) :
    cleanupTempE st = .ok (cleanupTemp st)
  ∧ cleanupTempE (cleanupTemp st) = .ok (cleanupTemp st) := by
  unfold cleanupTempE cleanupTemp unlinkZipE rmdirTempE
  by_cases hz : st.tempZipExists <;> by_cases hd : st.tempDirExists <;>
    by_cases ho : st.tempOther <;> simp [hz, hd, ho]

/-- C10: a store is not atomic on failure: when the destination already
holds at least `max ≥ 1` archives and the transfer step (local `copy2`,
FTP `storbinary`) fails, the rotation's deletions have already happened,
so the destination ends with strictly fewer archives than before the call
and without the new archive; the exception is still caught at the store
boundary (`processLocalE`/`processFtpE` return `.error`, which
`processLocal`/`processFtp` absorb) and `last_run` is not advanced. -/
theorem c10_failed_store_not_atomic (m newKey : Nat) (now : Int) (st : DestState)
    (hm : 1 ≤ m) (hlen : m ≤ st.folder.length) (hnew : newKey ∉ st.folder) :
    ((processLocal m newKey now false st).folder.length < st.folder.length
      ∧ newKey ∉ (processLocal m newKey now false st).folder
      ∧ (processLocal m newKey now false st).lastRun = st.lastRun
      ∧ processLocalE m newKey now false st = .error (processLocal m newKey now false st))
  ∧ ((processFtp m newKey now (some .upload) st).folder.length < st.folder.length
      ∧ newKey ∉ (processFtp m newKey now (some .upload) st).folder
      ∧ (processFtp m newKey now (some .upload) st).lastRun = st.lastRun
      ∧ processFtpE m newKey now (some .upload) st =
          .error (processFtp m newKey now (some .upload) st)) := by
  have hmem : ∀ x ∈ (sortByKey st.folder).drop
      ((sortByKey st.folder).length + 1 - m), x ∈ st.folder := by
    intro x hx
    have hx2 : x ∈ sortByKey st.folder := List.drop_subset _ _ hx
    exact (List.perm_insertionSort (· ≤ ·) st.folder).mem_iff.mp hx2
  have hdroplen : ((sortByKey st.folder).drop
      ((sortByKey st.folder).length + 1 - m)).length < st.folder.length := by
    simp [sortByKey, List.length_insertionSort]
    omega
  constructor
  · unfold processLocal processLocalE
    rw [rotateLoop_pos m hm (sortByKey st.folder)]
    simp only []
    exact ⟨hdroplen, fun hmem2 => hnew (hmem newKey hmem2), by simp, by simp⟩
  · unfold processFtp processFtpE
    simp only [Option.some.injEq, reduceCtorEq, if_false]
    rw [rotateLoop_pos m hm (sortByKey st.folder)]
    simp only [if_true]
    exact ⟨hdroplen, fun hmem2 => hnew (hmem newKey hmem2), by simp, by simp⟩

theorem c10_failed_store_not_atomic_witness :
    1 ≤ 1 ∧ 1 ≤ ([3] : List Nat).length ∧ 9 ∉ ([3] : List Nat)
  ∧ (processLocal 1 9 50 false ⟨[3], 5⟩).folder.length <
      ((⟨[3], 5⟩ : DestState)).folder.length
  ∧ 9 ∉ (processLocal 1 9 50 false ⟨[3], 5⟩).folder
  ∧ (processLocal 1 9 50 false ⟨[3], 5⟩).lastRun = 5 :=
  ⟨by decide, by decide, by decide,
    (c10_failed_store_not_atomic 1 9 50 ⟨[3], 5⟩ (by decide) (by decide) (by decide)).1.1,
    (c10_failed_store_not_atomic 1 9 50 ⟨[3], 5⟩ (by decide) (by decide) (by decide)).1.2.1,
    (c10_failed_store_not_atomic 1 9 50 ⟨[3], 5⟩ (by decide) (by decide) (by decide)).1.2.2.1⟩

/-- C2 counterexample: local destination enabled, due at `now = 0`, and
`create_zip` raises after `temp_dir.mkdir` has already run (main.py:105);
`zip_path` is still `None`, so the `finally` block (main.py:216-217)
skips `cleanup_temp`, and the scratch directory still exists when the
cycle completes — contradicting the claim that the scratch area is gone
regardless of where the cycle failed. -/
theorem c2_counterexample :
    (runCycle ⟨true, 3, 0, false, 3, 0⟩ 0 7 false true none
      ⟨false, false, false, ⟨[], 0⟩, ⟨[], 0⟩⟩).tempDirExists = true := by decide

/-- C2 (amended): in any cycle in which `create_zip` succeeds, and in
which the scratch directory holds nothing besides the cycle's own zip,
the `finally` block removes both the zip and the scratch directory,
regardless of each destination's store outcome; but when `create_zip`
itself raises, the cleanup is skipped (`zip_path` is `None`) and the
scratch directory created by `mkdir` survives the cycle. -/
theorem c2_cleanup_after_cycle (cfg : Config) (now : Int) (k : Nat) (c : Bool)
    (f : Option FtpFail) (st : SysState)
    (hdue : (dueLocal cfg st now || dueFtp cfg st now) = true)
    (hother : st.tempOther = false) :
    ((runCycle cfg now k true c f st).tempZipExists = false
      ∧ (runCycle cfg now k true c f st).tempDirExists = false)
  ∧ (runCycle cfg now k false c f st).tempDirExists = true := by
  unfold runCycle
  by_cases hl : dueLocal cfg st now <;> by_cases hf : dueFtp cfg st now <;>
    simp [hl, hf] at hdue ⊢ <;>
    exact cleanupTemp_clean _ rfl (by simp [hother])

theorem c2_cleanup_after_cycle_witness :
    (dueLocal ⟨true, 3, 0, false, 3, 0⟩ ⟨false, false, false, ⟨[], 0⟩, ⟨[], 0⟩⟩ 0 ||
      dueFtp ⟨true, 3, 0, false, 3, 0⟩ ⟨false, false, false, ⟨[], 0⟩, ⟨[], 0⟩⟩ 0) = true
  ∧ (runCycle ⟨true, 3, 0, false, 3, 0⟩ 0 7 true true none
      ⟨false, false, false, ⟨[], 0⟩, ⟨[], 0⟩⟩).tempDirExists = false :=
  ⟨by decide,
    ((c2_cleanup_after_cycle ⟨true, 3, 0, false, 3, 0⟩ 0 7 true none
      ⟨false, false, false, ⟨[], 0⟩, ⟨[], 0⟩⟩ (by decide) (by decide)).1).2⟩

/-- A successful FTP store records `last_ftp_run = now` and lands the new
archive in the remote folder. -/
theorem processFtp_ok_success (m k : Nat) (hm : 1 ≤ m) (now : Int) (st : DestState) :
    (processFtp m k now none st).lastRun = now
  ∧ k ∈ (processFtp m k now none st).folder := by
  unfold processFtp processFtpE
  rw [rotateLoop_pos m hm (sortByKey st.folder)]
  simp

/-- C3: a failed store is caught at that destination's boundary: it does
not change what the cycle does to the other destination's archives, does
not advance the failing destination's `last_run`, does not stop the other
due destination's store from running and succeeding in the same cycle
(local runs first, so a local copy failure cannot reach the FTP branch,
main.py:207-211), and the loop survives to compute its next wait. -/
theorem c3_failure_isolation (cfg : Config) (now : Int) (k : Nat) (c : Bool)
    (f : Option FtpFail) (st : SysState) :
    ((runCycle cfg now k true c f st).localDest =
        (runCycle cfg now k true c none st).localDest)
  ∧ ((runCycle cfg now k true false f st).ftpDest =
        (runCycle cfg now k true true f st).ftpDest)
  ∧ (∀ g : FtpFail, f = some g →
        (runCycle cfg now k true c f st).ftpDest.lastRun = st.ftpDest.lastRun)
  ∧ (c = false →
        (runCycle cfg now k true c f st).localDest.lastRun = st.localDest.lastRun)
  ∧ (dueFtp cfg st now = true → 1 ≤ cfg.ftpMax →
        (runCycle cfg now k true false none st).ftpDest.lastRun = now
      ∧ k ∈ (runCycle cfg now k true false none st).ftpDest.folder)
  ∧ (∀ (s : SysState) (now2 : Int), cfg.localEnabled = true →
        (sleepSeconds cfg s now2).isSome = true) := by
  refine ⟨?_, ?_, ?_, ?_, ?_, ?_⟩
  · rw [runCycle_localDest, runCycle_localDest]
  · rw [runCycle_ftpDest, runCycle_ftpDest]
  · intro g hg
    subst hg
    rw [runCycle_ftpDest]
    by_cases hf : dueFtp cfg st now
    · simp [hf, processFtp_fail_lastRun]
    · simp [hf]
  · intro hc
    subst hc
    rw [runCycle_localDest]
    by_cases hl : dueLocal cfg st now
    · simp [hl, processLocal_fail_lastRun]
    · simp [hl]
  · intro hf hm
    rw [runCycle_ftpDest]
    simp only [hf, if_true]
    exact processFtp_ok_success cfg.ftpMax k hm now st.ftpDest
  · intro s now2 hen
    simp [sleepSeconds, nextLocal, nextFtp, hen]
    by_cases hfen : cfg.ftpEnabled <;> simp [hfen, minOpt]

theorem c3_failure_isolation_witness :
    dueFtp ⟨true, 3, 0, true, 3, 0⟩ ⟨false, false, false, ⟨[], 0⟩, ⟨[], 0⟩⟩ 0 = true
  ∧ 1 ≤ 3
  ∧ (runCycle ⟨true, 3, 0, true, 3, 0⟩ 0 7 true false none
      ⟨false, false, false, ⟨[], 0⟩, ⟨[], 0⟩⟩).ftpDest.lastRun = 0
  ∧ 7 ∈ (runCycle ⟨true, 3, 0, true, 3, 0⟩ 0 7 true false none
      ⟨false, false, false, ⟨[], 0⟩, ⟨[], 0⟩⟩).ftpDest.folder
  ∧ (runCycle ⟨true, 3, 0, true, 3, 0⟩ 0 7 true false (some .login)
      ⟨false, false, false, ⟨[], 0⟩, ⟨[], 0⟩⟩).localDest.lastRun = 0 :=
  ⟨by decide, by decide,
    ((c3_failure_isolation ⟨true, 3, 0, true, 3, 0⟩ 0 7 true none
      ⟨false, false, false, ⟨[], 0⟩, ⟨[], 0⟩⟩).2.2.2.2.1 (by decide) (by decide)).1,
    ((c3_failure_isolation ⟨true, 3, 0, true, 3, 0⟩ 0 7 true none
      ⟨false, false, false, ⟨[], 0⟩, ⟨[], 0⟩⟩).2.2.2.2.1 (by decide) (by decide)).2,
    (c3_failure_isolation ⟨true, 3, 0, true, 3, 0⟩ 0 7 false (some .login)
      ⟨false, false, false, ⟨[], 0⟩, ⟨[], 0⟩⟩).2.2.2.1 rfl⟩

/-- C6: on each loop pass an enabled destination is triggered iff
`now - last_run ≥ interval` (so a never-run destination, `last_run = 0`,
is due immediately once `now ≥ interval`, as at process start with epoch
`now`), and the computed wait is
`max 5 (min over enabled destinations of (last_run + interval) - now)`
— disabled destinations contribute no deadline, and the wait is never
below the 5-second floor. -/
theorem c6_schedule (cfg : Config) (st : SysState) (now now2 : Int) :
    (cfg.localEnabled = true →
      (dueLocal cfg st now = true ↔ now - st.localDest.lastRun ≥ cfg.localInterval))
  ∧ (cfg.ftpEnabled = true →
      (dueFtp cfg st now = true ↔ now - st.ftpDest.lastRun ≥ cfg.ftpInterval))
  ∧ (cfg.localEnabled = true → st.localDest.lastRun = 0 → cfg.localInterval ≤ now →
      dueLocal cfg st now = true)
  ∧ (cfg.localEnabled = true → cfg.ftpEnabled = true →
      sleepSeconds cfg st now2 =
        some (max 5 (min (st.localDest.lastRun + cfg.localInterval)
          (st.ftpDest.lastRun + cfg.ftpInterval) - now2)))
  ∧ (cfg.localEnabled = true → cfg.ftpEnabled = false →
      sleepSeconds cfg st now2 = some (max 5 (st.localDest.lastRun + cfg.localInterval - now2)))
  ∧ (cfg.localEnabled = false → cfg.ftpEnabled = true →
      sleepSeconds cfg st now2 = some (max 5 (st.ftpDest.lastRun + cfg.ftpInterval - now2)))
  ∧ (∀ s : Int, sleepSeconds cfg st now2 = some s → 5 ≤ s) := by
  refine ⟨?_, ?_, ?_, ?_, ?_, ?_, ?_⟩
  · intro h
    simp [dueLocal, h]
  · intro h
    simp [dueFtp, h]
  · intro h h0 hiv
    simp [dueLocal, h, h0]
    omega
  · intro h1 h2
    simp [sleepSeconds, nextLocal, nextFtp, h1, h2, minOpt]
  · intro h1 h2
    simp [sleepSeconds, nextLocal, nextFtp, h1, h2, minOpt]
  · intro h1 h2
    simp [sleepSeconds, nextLocal, nextFtp, h1, h2, minOpt]
  · intro s hs
    by_cases h1 : cfg.localEnabled <;> by_cases h2 : cfg.ftpEnabled <;>
      simp [sleepSeconds, nextLocal, nextFtp, h1, h2, minOpt] at hs <;> omega

theorem c6_schedule_witness :
    dueLocal ⟨true, 3, 60, false, 3, 60⟩ ⟨false, false, false, ⟨[], 0⟩, ⟨[], 0⟩⟩ 60 = true
  ∧ sleepSeconds ⟨true, 3, 60, false, 3, 60⟩ ⟨false, false, false, ⟨[], 0⟩, ⟨[], 0⟩⟩ 10 =
      some (max 5 ((0 : Int) + 60 - 10)) :=
  ⟨(c6_schedule ⟨true, 3, 60, false, 3, 60⟩ ⟨false, false, false, ⟨[], 0⟩, ⟨[], 0⟩⟩ 60 10).2.2.1
      rfl rfl (by decide),
    (c6_schedule ⟨true, 3, 60, false, 3, 60⟩ ⟨false, false, false, ⟨[], 0⟩, ⟨[], 0⟩⟩ 60 10).2.2.2.2.1
      rfl rfl⟩

/-- C9: archive names have the fixed-width form
`backup_<YYYYMMDD>_<HHMMSS>.zip`, so the chronologically earlier of two
archives always has the lexicographically smaller name; in particular the
three listed remote names sort lexicographically into exactly
chronological order. -/
theorem c9_lexicographic_names :
    (∀ t1 t2 : Timestamp, t1.valid → t2.valid → t1.chronoLt t2 →
        lexLt (archiveNameCodes t1) (archiveNameCodes t2) = true)
  ∧ archiveNameCodes ⟨2024, 1, 1, 0, 0, 0⟩ = "backup_20240101_000000.zip".data.map Char.toNat
  ∧ archiveNameCodes ⟨2024, 1, 2, 0, 0, 0⟩ = "backup_20240102_000000.zip".data.map Char.toNat
  ∧ archiveNameCodes ⟨2024, 1, 15, 23, 59, 59⟩ =
      "backup_20240115_235959.zip".data.map Char.toNat
  ∧ sortNames [archiveNameCodes ⟨2024, 1, 15, 23, 59, 59⟩,
        archiveNameCodes ⟨2024, 1, 1, 0, 0, 0⟩, archiveNameCodes ⟨2024, 1, 2, 0, 0, 0⟩] =
      [archiveNameCodes ⟨2024, 1, 1, 0, 0, 0⟩, archiveNameCodes ⟨2024, 1, 2, 0, 0, 0⟩,
        archiveNameCodes ⟨2024, 1, 15, 23, 59, 59⟩] :=
  ⟨lexLt_archiveName_of_chronoLt, by decide, by decide, by decide, by decide⟩

theorem c9_lexicographic_names_witness :
    (⟨2024, 1, 1, 0, 0, 0⟩ : Timestamp).valid
  ∧ (⟨2024, 1, 2, 0, 0, 0⟩ : Timestamp).valid
  ∧ (⟨2024, 1, 1, 0, 0, 0⟩ : Timestamp).chronoLt ⟨2024, 1, 2, 0, 0, 0⟩
  ∧ lexLt (archiveNameCodes ⟨2024, 1, 1, 0, 0, 0⟩)
      (archiveNameCodes ⟨2024, 1, 2, 0, 0, 0⟩) = true :=
  ⟨by decide, by decide, by decide,
    c9_lexicographic_names.1 ⟨2024, 1, 1, 0, 0, 0⟩ ⟨2024, 1, 2, 0, 0, 0⟩
      (by decide) (by decide) (by decide)⟩

end MCBackup
